import Mathlib

/-!
Shallow embedding of `src/app_consumo_electrico.py`, a single-file Flask app
that records household appliances, computes monthly energy consumption and
cost at a fixed tariff, classifies each entry into an advisory tier, and
exports the in-memory record set as a CSV table.

Modelling conventions:
  * Python floats are modelled as rationals (`ℚ`), the idealized exact
    arithmetic the formulas denote.
  * Each appliance entry is a Python dict; we model it as an association
    list `List (String × Value)` with the same keys in the same order that
    `add` inserts them, and dict access (`e['k']`, `e.get(k, d)`) as
    list lookup.
  * `request.form['x']` / `float(...)` can raise (missing key, parse
    failure); the handler receives each form field already parsed as an
    `Option`: `none` means the access or the parse raised, landing in the
    `except` branch of `add`.
  * Flask flash messages are a queue on the state, appended by handlers and
    drained by the next render (`get_flashed_messages`).
  * `datetime.now()` is nondeterministic; handlers that read the clock take
    the clock reading as an explicit argument.
-/

namespace AppConsumo

/-- `TARIFA = 700` COP per kWh, the fixed tariff constant. -/
def TARIFA : ℚ := 700

/-- A value stored in an appliance dict: Python string or float. -/
inductive Value where
  | str : String → Value
  | num : ℚ → Value
deriving DecidableEq, Repr

/-- An appliance entry, modelling the Python dict as an association list. -/
abbrev Dict := List (String × Value)

/-- Dict access `e[k]`: first binding of key `k`, `none` when absent
(a `KeyError` in Python). -/
def dictGet (e : Dict) (k : String) : Option Value :=
  (e.find? fun p => p.1 == k).map Prod.snd

/-- Dict access with default, `e.get(k, d)`. -/
def dictGetD (e : Dict) (k : String) (d : Value) : Value :=
  (dictGet e k).getD d

/-- Drop leading whitespace characters. -/
def lstrip : List Char → List Char
  | [] => []
  | c :: cs => if c.isWhitespace then lstrip cs else c :: cs

/-- Python's `str.strip()` (no argument): remove leading and trailing
whitespace. Modelled here directly since it is a language builtin, not
repository code. -/
def strip (s : String) : String :=
  String.mk (lstrip (lstrip s.data).reverse).reverse

/-- Process state: the global `electrodomesticos` list plus the queue of
pending flash messages. -/
structure St where
  electrodomesticos : List Dict
  flashes : List String
deriving DecidableEq, Repr

/-- Fresh process state: empty store, no pending messages. -/
def init : St := ⟨[], []⟩

/-- The dict literal appended by `add`, keys in source order. -/
def mkEntry (nombre : String) (potencia horas consumo costo : ℚ)
    (timestamp : String) : Dict :=
  [("nombre", Value.str nombre),
   ("potencia_W", Value.num potencia),
   ("horas_diarias", Value.num horas),
   ("consumo_mensual_kWh", Value.num consumo),
   ("costo_pesos", Value.num costo),
   ("timestamp", Value.str timestamp)]

/-- `POST /add`. Each form field arrives as an `Option`: `none` models
`request.form[...]` raising `KeyError` or `float(...)` raising
`ValueError`, both caught by the `except` branch, which flashes an error
and leaves the store untouched. On success the handler strips the name,
computes `consumo_diario = potencia*horas/1000`, `consumo_mensual =
consumo_diario*30`, `costo = consumo_mensual*TARIFA`, appends the entry
and flashes a confirmation. No validation beyond parsing happens. -/
def add (st : St) (nombre? : Option String) (potencia? horas? : Option ℚ)
    (now : String) : St :=
  match nombre?, potencia?, horas? with
  | some n, some potencia, some horas =>
      let nombre := strip n
      let consumo_diario := potencia * horas / 1000
      let consumo_mensual := consumo_diario * 30
      let costo := consumo_mensual * TARIFA
      { electrodomesticos :=
          st.electrodomesticos ++
            [mkEntry nombre potencia horas consumo_mensual costo now],
        flashes := st.flashes ++ [nombre ++ " agregado correctamente."] }
  | _, _, _ =>
      { st with flashes := st.flashes ++ ["Error al agregar."] }

/-- `e['k']` read as a float: `some q` when the key holds a number,
`none` when the key is missing or holds a string (a `TypeError` or
`KeyError` in Python). -/
def asNum : Option Value → Option ℚ
  | some (Value.num q) => some q
  | _ => none

/-- `sum(e[k] for e in store)`: `none` if any entry lacks a numeric `k`
(the generator would raise), otherwise the exact sum (0 for an empty
store). -/
def sumField (store : List Dict) (k : String) : Option ℚ :=
  (store.mapM fun e => asNum (dictGet e k)).map fun l => l.sum

/-- The rendered index page: drained flash messages, the entry rows in
store order, the two aggregate totals, and the tariff shown in the
footer. -/
structure Page where
  messages : List String
  items : List Dict
  total_consumo : Option ℚ
  total_costo : Option ℚ
  tarifa : ℚ
deriving DecidableEq, Repr

/-- `GET /`: renders all entries plus `total_kwh` and `total_c`, consuming
the pending flash messages (they are one-shot). -/
def index (st : St) : Page × St :=
  (⟨st.flashes, st.electrodomesticos,
    sumField st.electrodomesticos "consumo_mensual_kWh",
    sumField st.electrodomesticos "costo_pesos", TARIFA⟩,
   { st with flashes := [] })

/-- Advisory tier of the template badge. -/
inductive Tier where
  | ALERT
  | WARNING
  | OK
deriving DecidableEq, Repr

/-- The template classifier (BASE_HTML lines 113-122): `> 50` → ALERTA,
`elif > 30` → Advertencia, else OK; first match wins. -/
def classify (consumo : ℚ) : Tier :=
  if consumo > 50 then Tier.ALERT
  else if consumo > 30 then Tier.WARNING
  else Tier.OK

/-- The CSV `fieldnames` list of `download_csv`. -/
def fieldnames : List String :=
  ["nombre", "potencia_W", "horas_diarias", "consumo_mensual_kWh",
   "costo_pesos", "timestamp"]

/-- One CSV data row: `{k: e.get(k, '') for k in fieldnames}`, in field
order, with the empty-string fallback for missing keys. -/
def csvRow (e : Dict) : List Value :=
  fieldnames.map fun k => dictGetD e k (Value.str "")

/-- The full CSV table: header row then one data row per entry in store
order. -/
def csvTable (store : List Dict) : List (List Value) :=
  (fieldnames.map Value.str) :: store.map csvRow

/-- The file attachment `download_csv` returns. -/
structure CsvFile where
  filename : String
  table : List (List Value)
deriving DecidableEq, Repr

/-- `GET /download`: with an empty store, flash a notice and redirect
(no file); otherwise build the CSV table and return it with the
timestamped filename. The store is never mutated. -/
def download_csv (st : St) (now : String) : St × Option CsvFile :=
  if st.electrodomesticos.isEmpty then
    ({ st with flashes := st.flashes ++ ["No hay datos para descargar."] },
     none)
  else
    (st, some ⟨"consumo_" ++ now ++ ".csv", csvTable st.electrodomesticos⟩)

/-- `GET /clear`: `electrodomesticos.clear()` then a confirmation flash. -/
def clear_data (st : St) : St :=
  { electrodomesticos := [], flashes := st.flashes ++ ["Datos limpiados."] }

/-- One HTTP request against the app. -/
inductive Op where
  | addOp (nombre? : Option String) (potencia? horas? : Option ℚ)
      (now : String)
  | viewOp
  | downloadOp (now : String)
  | clearOp
deriving DecidableEq, Repr

/-- The state transition of one request. -/
def applyOp (st : St) : Op → St
  | Op.addOp n p h now => add st n p h now
  | Op.viewOp => (index st).2
  | Op.downloadOp now => (download_csv st now).1
  | Op.clearOp => clear_data st

/-- Run a request sequence from a fresh process. -/
def run (ops : List Op) : St := ops.foldl applyOp init

/-- C3: the advisory classifier yields ALERT exactly when energy > 50,
WARNING exactly when 30 < energy ≤ 50, and OK exactly when energy ≤ 30;
in particular classify 50 = WARNING and classify 30 = OK, because both
thresholds are strict `>` comparisons evaluated first-match-wins. -/
theorem classify_boundaries (q : ℚ) :
    (classify q = Tier.ALERT ↔ 50 < q) ∧
    (classify q = Tier.WARNING ↔ 30 < q ∧ q ≤ 50) ∧
    (classify q = Tier.OK ↔ q ≤ 30) ∧
    classify 50 = Tier.WARNING ∧ classify 30 = Tier.OK := by
  have hA : classify q = Tier.ALERT ↔ 50 < q := by
    unfold classify
    split_ifs with h1 h2 <;> simp_all
  have hW : classify q = Tier.WARNING ↔ 30 < q ∧ q ≤ 50 := by
    unfold classify
    split_ifs with h1 h2 <;> simp_all
  have hO : classify q = Tier.OK ↔ q ≤ 30 := by
    unfold classify
    split_ifs with h1 h2 <;> simp_all
    linarith
  exact ⟨hA, hW, hO, by norm_num [classify], by norm_num [classify]⟩

/-- C2: for all non-negative power and hours, `add` stores
`monthly_energy_kwh = power*hours*0.03` (the source's `/1000*30`) and
`monthly_cost = monthly_energy_kwh * 700`, exactly, with no rounding. -/
theorem add_stores_exact_formula (st : St) (n : String) (p h : ℚ)
    (now : String) (hp : 0 ≤ p) (hh : 0 ≤ h) :
    (add st (some n) (some p) (some h) now).electrodomesticos
      = st.electrodomesticos ++
        [mkEntry (strip n) p h (p * h * (3 / 100)) (p * h * (3 / 100) * 700)
          now] := by
  have hc : p * h / 1000 * 30 = p * h * (3 / 100) := by ring
  have hco : p * h / 1000 * 30 * TARIFA = p * h * (3 / 100) * 700 := by
    unfold TARIFA; ring
  show st.electrodomesticos ++
      [mkEntry (strip n) p h (p * h / 1000 * 30) (p * h / 1000 * 30 * TARIFA)
        now] = _
  rw [hco, hc]

/-- Witness for C2 at the spec's Fridge scenario: 150 W, 24 h/day gives
108 kWh and 75600 COP. -/
theorem add_stores_exact_formula_witness :
    (0 : ℚ) ≤ 150 ∧ (0 : ℚ) ≤ 24 ∧
    (add init (some "Nevera") (some 150) (some 24) "t").electrodomesticos
      = init.electrodomesticos ++
        [mkEntry (strip "Nevera") 150 24 (150 * 24 * (3 / 100))
          (150 * 24 * (3 / 100) * 700) "t"] :=
  ⟨by norm_num, by norm_num,
   add_stores_exact_formula init "Nevera" 150 24 "t" (by norm_num)
     (by norm_num)⟩

/-- C10: clear is idempotent — it empties the store even when already
empty, a second clear leaves the store exactly as one clear does, and a
confirmation notice is flashed unconditionally. -/
theorem clear_idempotent (st : St) :
    (clear_data st).electrodomesticos = [] ∧
    (clear_data (clear_data st)).electrodomesticos
      = (clear_data st).electrodomesticos ∧
    (clear_data st).flashes = st.flashes ++ ["Datos limpiados."] ∧
    (clear_data init).electrodomesticos = [] ∧
    (clear_data init).flashes = ["Datos limpiados."] :=
  ⟨rfl, rfl, rfl, rfl, rfl⟩

/-- C5: download on an empty store produces no file and flashes a notice
(the table builder is not invoked); on a nonempty store it returns the
header row followed by exactly one data row per entry in store order,
built from the stored field values. The store itself is never mutated. -/
theorem download_behavior (st : St) (now : String) :
    (download_csv st now).2
      = (if st.electrodomesticos.isEmpty then none
         else some ⟨"consumo_" ++ now ++ ".csv",
           (fieldnames.map Value.str) :: st.electrodomesticos.map csvRow⟩) ∧
    (download_csv st now).1.electrodomesticos = st.electrodomesticos ∧
    (download_csv st now).1.flashes
      = (if st.electrodomesticos.isEmpty
         then st.flashes ++ ["No hay datos para descargar."]
         else st.flashes) := by
  unfold download_csv csvTable
  by_cases hE : st.electrodomesticos.isEmpty <;> simp [hE]

/-- C1 counterexample: a whitespace-only name and a negative power are
both accepted by `add` — the store grows from 0 to 1 entries in either
case, contradicting the claim that such requests leave the store
unchanged. -/
theorem add_invalid_inputs_mutate_store :
    (strip "   " = "" ∧
      List.length
        (add init (some "   ") (some 100) (some 5) "t").electrodomesticos
        = 1) ∧
    ((-100 : ℚ) < 0 ∧
      List.length
        (add init (some "Nevera") (some (-100)) (some 5) "t").electrodomesticos
        = 1) :=
  ⟨⟨by decide, rfl⟩, ⟨by norm_num, rfl⟩⟩

/-- C1 amended: only requests whose name, power or hours field is missing
or fails to parse (modelled as `none`) leave the store unchanged and
flash an error notice; empty/whitespace-only names and negative numbers
are accepted, since the handler performs no validation beyond parsing. -/
theorem add_parse_failure_no_mutation (st : St) (nombre? : Option String)
    (potencia? horas? : Option ℚ) (now : String)
    (hfail : nombre? = none ∨ potencia? = none ∨ horas? = none) :
    (add st nombre? potencia? horas? now).electrodomesticos
      = st.electrodomesticos ∧
    (add st nombre? potencia? horas? now).flashes
      = st.flashes ++ ["Error al agregar."] := by
  cases nombre? <;> cases potencia? <;> cases horas? <;>
    first
      | exact ⟨rfl, rfl⟩
      | simp_all

/-- Witness for C1 amended: an unparsable power field leaves the fresh
store unchanged and produces the error notice. -/
theorem add_parse_failure_no_mutation_witness :
    (add init (some "Nevera") none (some 5) "t").electrodomesticos
      = init.electrodomesticos ∧
    (add init (some "Nevera") none (some 5) "t").flashes
      = init.flashes ++ ["Error al agregar."] :=
  add_parse_failure_no_mutation init (some "Nevera") none (some 5) "t"
    (Or.inr (Or.inl rfl))

/-- The entry `add` stores for a parsed input `(name, power, hours, now)`. -/
def entryOf (i : String × ℚ × ℚ × String) : Dict :=
  mkEntry (strip i.1) i.2.1 i.2.2.1 (i.2.1 * i.2.2.1 / 1000 * 30)
    (i.2.1 * i.2.2.1 / 1000 * 30 * TARIFA) i.2.2.2

/-- A sequence of successful add requests. -/
def addInputs (st : St) (inputs : List (String × ℚ × ℚ × String)) : St :=
  inputs.foldl
    (fun s i => add s (some i.1) (some i.2.1) (some i.2.2.1) i.2.2.2) st

theorem addInputs_store (st : St)
    (inputs : List (String × ℚ × ℚ × String)) :
    (addInputs st inputs).electrodomesticos
      = st.electrodomesticos ++ inputs.map entryOf := by
  induction inputs generalizing st with
  | nil => simp [addInputs]
  | cons i rest ih =>
      have h1 : addInputs st (i :: rest)
          = addInputs (add st (some i.1) (some i.2.1) (some i.2.2.1) i.2.2.2)
              rest := rfl
      rw [h1, ih]
      show (st.electrodomesticos ++ [entryOf i]) ++ rest.map entryOf = _
      simp

theorem sumField_cons (e : Dict) (store : List Dict) (k : String) (q : ℚ)
    (hq : asNum (dictGet e k) = some q) :
    sumField (e :: store) k = (sumField store k).map fun s => q + s := by
  unfold sumField
  rw [List.mapM_cons, hq]
  cases hrest : store.mapM fun x => asNum (dictGet x k) <;> simp [hrest]

theorem sumField_entries (l : List (String × ℚ × ℚ × String)) :
    sumField (l.map entryOf) "consumo_mensual_kWh"
      = some ((l.map fun i => i.2.1 * i.2.2.1 / 1000 * 30).sum) ∧
    sumField (l.map entryOf) "costo_pesos"
      = some ((l.map fun i => i.2.1 * i.2.2.1 / 1000 * 30 * TARIFA).sum) := by
  induction l with
  | nil => exact ⟨rfl, rfl⟩
  | cons i rest ih =>
      obtain ⟨ih1, ih2⟩ := ih
      constructor
      · rw [List.map_cons,
          sumField_cons (entryOf i) (rest.map entryOf) "consumo_mensual_kWh"
            (i.2.1 * i.2.2.1 / 1000 * 30) rfl, ih1]
        simp
      · rw [List.map_cons,
          sumField_cons (entryOf i) (rest.map entryOf) "costo_pesos"
            (i.2.1 * i.2.2.1 / 1000 * 30 * TARIFA) rfl, ih2]
        simp

/-- C4: after N successful adds (starting from a fresh store) the summary
shows exactly N rows, in insertion order, each being the entry `add`
stored; the totals are the exact sums of the stored monthly energies and
costs, and both totals are 0 for the empty store. -/
theorem summary_rows_and_totals (inputs : List (String × ℚ × ℚ × String)) :
    (index (addInputs init inputs)).1.items = inputs.map entryOf ∧
    List.length (index (addInputs init inputs)).1.items = inputs.length ∧
    (index (addInputs init inputs)).1.total_consumo
      = some ((inputs.map fun i => i.2.1 * i.2.2.1 / 1000 * 30).sum) ∧
    (index (addInputs init inputs)).1.total_costo
      = some ((inputs.map fun i => i.2.1 * i.2.2.1 / 1000 * 30 * TARIFA).sum)
      ∧
    (index init).1.total_consumo = some 0 ∧
    (index init).1.total_costo = some 0 := by
  have hstore : (addInputs init inputs).electrodomesticos
      = inputs.map entryOf := by
    rw [addInputs_store]; rfl
  refine ⟨hstore, ?_, ?_, ?_, rfl, rfl⟩
  · show List.length (addInputs init inputs).electrodomesticos = _
    rw [hstore, List.length_map]
  · show sumField (addInputs init inputs).electrodomesticos _ = _
    rw [hstore]
    exact (sumField_entries inputs).1
  · show sumField (addInputs init inputs).electrodomesticos _ = _
    rw [hstore]
    exact (sumField_entries inputs).2

/-- Shape of every store mutation: a request leaves the store unchanged,
empties it, or appends one entry whose derived fields are computed from
its own power and hours by the source formula. -/
theorem applyOp_store (st : St) (op : Op) :
    (applyOp st op).electrodomesticos = st.electrodomesticos ∨
    (applyOp st op).electrodomesticos = [] ∨
    ∃ n p h now, (applyOp st op).electrodomesticos
      = st.electrodomesticos ++
        [mkEntry (strip n) p h (p * h / 1000 * 30)
          (p * h / 1000 * 30 * TARIFA) now] := by
  cases op with
  | addOp a b c d =>
      cases a with
      | none => cases b <;> cases c <;> exact Or.inl rfl
      | some n =>
          cases b with
          | none => cases c <;> exact Or.inl rfl
          | some p =>
              cases c with
              | none => exact Or.inl rfl
              | some hq => exact Or.inr (Or.inr ⟨n, p, hq, d, rfl⟩)
  | viewOp => exact Or.inl rfl
  | downloadOp now =>
      refine Or.inl ?_
      show (download_csv st now).1.electrodomesticos = _
      unfold download_csv
      split <;> rfl
  | clearOp => exact Or.inr (Or.inl rfl)

/-- C7: across every operation the only store mutations are appending one
new entry at the end — with its derived fields computed from its own
power and hours at insertion time — or clearing the whole collection;
no operation rewrites or updates existing entries, so stored derived
fields are never mutated after insertion. -/
theorem store_mutation_shapes (st : St) (op : Op) :
    (applyOp st op).electrodomesticos = st.electrodomesticos ∨
    (applyOp st op).electrodomesticos = [] ∨
    ∃ n p h now, (applyOp st op).electrodomesticos
      = st.electrodomesticos ++
        [mkEntry (strip n) p h (p * h / 1000 * 30)
          (p * h / 1000 * 30 * TARIFA) now] :=
  applyOp_store st op

/-- Run a request sequence from a given state. -/
def runFrom (st : St) (ops : List Op) : St := ops.foldl applyOp st

/-- Is the request an add? -/
def isAdd : Op → Bool
  | Op.addOp _ _ _ _ => true
  | _ => false

theorem applyOp_keeps_empty (st : St) (op : Op) (hop : isAdd op = false)
    (hst : st.electrodomesticos = []) :
    (applyOp st op).electrodomesticos = [] := by
  cases op with
  | addOp a b c d => simp [isAdd] at hop
  | viewOp => exact hst
  | downloadOp now =>
      show (download_csv st now).1.electrodomesticos = []
      unfold download_csv
      split <;> exact hst
  | clearOp => rfl

/-- C6: clear unconditionally empties the store, and any sequence of
non-add requests afterwards keeps it empty: every subsequent read shows
zero entries and zero totals. -/
theorem clear_then_reads_zero (st : St) (ops : List Op)
    (hops : ∀ op ∈ ops, isAdd op = false) :
    (runFrom (clear_data st) ops).electrodomesticos = [] ∧
    (index (runFrom (clear_data st) ops)).1.items = [] ∧
    (index (runFrom (clear_data st) ops)).1.total_consumo = some 0 ∧
    (index (runFrom (clear_data st) ops)).1.total_costo = some 0 := by
  have key : ∀ (l : List Op) (s : St), (∀ op ∈ l, isAdd op = false) →
      s.electrodomesticos = [] → (runFrom s l).electrodomesticos = [] := by
    intro l
    induction l with
    | nil => intro s _ hs; exact hs
    | cons op rest ih =>
        intro s hl hs
        exact ih (applyOp s op)
          (fun o ho => hl o (List.mem_cons_of_mem _ ho))
          (applyOp_keeps_empty s op (hl op (List.mem_cons_self _ _)) hs)
  have hempty := key ops (clear_data st) hops rfl
  refine ⟨hempty, hempty, ?_, ?_⟩
  · show sumField (runFrom (clear_data st) ops).electrodomesticos _ = _
    rw [hempty]
    rfl
  · show sumField (runFrom (clear_data st) ops).electrodomesticos _ = _
    rw [hempty]
    rfl

/-- Witness for C6: clearing a fresh store and then performing a view, a
download and another clear leaves zero entries and a zero energy total. -/
theorem clear_then_reads_zero_witness :
    (runFrom (clear_data init)
      [Op.viewOp, Op.downloadOp "t", Op.clearOp]).electrodomesticos = [] ∧
    (index (runFrom (clear_data init)
      [Op.viewOp, Op.downloadOp "t", Op.clearOp])).1.total_consumo
      = some 0 :=
  ⟨(clear_then_reads_zero init [Op.viewOp, Op.downloadOp "t", Op.clearOp]
      (by decide)).1,
   (clear_then_reads_zero init [Op.viewOp, Op.downloadOp "t", Op.clearOp]
      (by decide)).2.2.1⟩

/-- C9: the add handler accepts any values that parse as numbers — there
is no server-side sign check — so entries with negative monthly energy
are reachable, and the classifier renders OK for every energy ≤ 30,
negative values included. -/
theorem add_accepts_unvalidated_floats :
    (∀ st n p h now,
      (add st (some n) (some p) (some h) now).electrodomesticos
        = st.electrodomesticos ++
          [mkEntry (strip n) p h (p * h / 1000 * 30)
            (p * h / 1000 * 30 * TARIFA) now]) ∧
    (run [Op.addOp (some "Nevera") (some (-100)) (some 5) "t"]).electrodomesticos
      = [mkEntry (strip "Nevera") (-100) 5 ((-100) * 5 / 1000 * 30)
          ((-100) * 5 / 1000 * 30 * TARIFA) "t"] ∧
    ((-100 : ℚ) * 5 / 1000 * 30 < 0) ∧
    (∀ q : ℚ, q ≤ 30 → classify q = Tier.OK) := by
  refine ⟨fun st n p hq now => rfl, rfl, by norm_num, fun q hq => ?_⟩
  have h1 : ¬ (50 : ℚ) < q := not_lt.mpr (le_trans hq (by norm_num))
  have h2 : ¬ (30 : ℚ) < q := not_lt.mpr hq
  simp [classify, h1, h2]

/-- Witness for C9: energy −15 is ≤ 30 and classifies as OK. -/
theorem add_accepts_unvalidated_floats_witness :
    (-15 : ℚ) ≤ 30 ∧ classify (-15) = Tier.OK :=
  ⟨by norm_num, add_accepts_unvalidated_floats.2.2.2 (-15) (by norm_num)⟩

/-- An entry has the exact shape `add` constructs. -/
def entryWF (e : Dict) : Prop :=
  ∃ n p h c co ts, e = mkEntry n p h c co ts

theorem applyOp_WF (st : St) (op : Op)
    (hst : ∀ e ∈ st.electrodomesticos, entryWF e) :
    ∀ e ∈ (applyOp st op).electrodomesticos, entryWF e := by
  rcases applyOp_store st op with h | h | ⟨n, p, hq, now, h⟩ <;> rw [h]
  · exact hst
  · intro e he
    exact absurd he (List.not_mem_nil e)
  · intro e he
    rcases List.mem_append.mp he with h1 | h2
    · exact hst e h1
    · rw [List.mem_singleton.mp h2]
      exact ⟨strip n, p, hq, _, _, now, rfl⟩

theorem run_WF (ops : List Op) :
    ∀ e ∈ (run ops).electrodomesticos, entryWF e := by
  have key : ∀ (l : List Op) (s : St),
      (∀ e ∈ s.electrodomesticos, entryWF e) →
      ∀ e ∈ (l.foldl applyOp s).electrodomesticos, entryWF e := by
    intro l
    induction l with
    | nil => intro s hs; exact hs
    | cons op rest ih =>
        intro s hs
        exact ih (applyOp s op) (applyOp_WF s op hs)
  exact key ops init (fun e he => absurd he (List.not_mem_nil e))

/-- C8: every entry ever placed in the store carries exactly the six CSV
fields, in the writer's field order, so the CSV writer's empty-string
fallback is unreachable: each exported row is the same whatever default
the dict lookup is given. -/
theorem entries_have_all_fields (ops : List Op) (e : Dict)
    (he : e ∈ (run ops).electrodomesticos) :
    e.map Prod.fst = fieldnames ∧
    (∀ k ∈ fieldnames, (dictGet e k).isSome = true) ∧
    (∀ d : Value, fieldnames.map (fun k => dictGetD e k d) = csvRow e) := by
  obtain ⟨n, p, hq, c, co, ts, rfl⟩ := run_WF ops e he
  refine ⟨rfl, ?_, fun d => rfl⟩
  intro k hk
  fin_cases hk <;> rfl

/-- Witness for C8: the single entry of a one-add run has exactly the six
CSV field names as keys. -/
theorem entries_have_all_fields_witness :
    (mkEntry (strip "tv") 100 5 (100 * 5 / 1000 * 30)
        (100 * 5 / 1000 * 30 * TARIFA) "t")
      ∈ (run [Op.addOp (some "tv") (some 100) (some 5) "t"]).electrodomesticos
      ∧
    (mkEntry (strip "tv") 100 5 (100 * 5 / 1000 * 30)
        (100 * 5 / 1000 * 30 * TARIFA) "t").map Prod.fst = fieldnames := by
  have he : (mkEntry (strip "tv") 100 5 (100 * 5 / 1000 * 30)
      (100 * 5 / 1000 * 30 * TARIFA) "t")
      ∈ (run [Op.addOp (some "tv") (some 100) (some 5) "t"]).electrodomesticos
      := List.mem_singleton.mpr rfl
  exact ⟨he, (entries_have_all_fields _ _ he).1⟩

end AppConsumo
